import Mathlib

/-!
# Verification of the funes memory-chat core

A shallow embedding of the tool-calling orchestration core of the repository:
the sandboxed memory store (`src/memchat/tools.py`), the tool registry
(`execute_tool_call`), and the conversation loop / orchestrator
(`src/memchat/orchestrator.py`).

Modelling conventions:
* A filesystem path is a list of components.  `pathlib`'s parsing of a path
  string (splitting on `/`, detecting a leading `/`) is embedded in
  `parsePath`; `Path.resolve()` on a tree without symlinks is the lexical
  normalization `normalize` (dropping empty and `.` components, resolving
  `..` against the parent).  Symlinks are not modelled.
* The store (`MemStore`) is the memory root's absolute components plus the
  relative paths of the regular files below it.  A file's bytes either decode
  as UTF-8 (`FileData.text`, carrying exactly the decoded bytes) or do not
  (`FileData.binary`, carrying the decode error's reason).  The modelled
  filesystem is closed-world: it consists of the root's ancestor directories,
  the root itself (assumed to exist), the directories holding files of the
  tree, and those files — nothing else.
* `Path.exists()` / `Path.is_file()` stat the raw, un-normalized path: the
  OS walks its components one by one, and each intermediate component —
  including those preceding a `..` — must exist as a directory for the walk
  to succeed (`walkRaw`).  `Path.resolve()`, by contrast, is purely lexical
  on a symlink-free tree.
* `Path.read_text(encoding="utf-8")` opens in text mode with universal
  newlines: after decoding, `\r\n` and lone `\r` become `\n`
  (`translateNewlines`).
* Python exception messages are carried verbatim in `ReadError`;
  `str(UnicodeDecodeError(...))`'s codec prefix is abstracted into the
  carried reason string.
-/

namespace Memchat

/-- Content of one file on disk: either bytes that decode as UTF-8 (the
decoded string) or bytes that do not (the decode error's reason text). -/
inductive FileData where
  | text (s : String)
  | binary (reason : String)
deriving DecidableEq, Repr

/-- The sandboxed memory store: `root` is `MEM_DIR.resolve()` as absolute,
already-normalized path components; `files` maps each regular file's path
relative to the root to its content. -/
structure MemStore where
  root : List String
  files : List (List String × FileData)
deriving DecidableEq, Repr

/-- One step of lexical path normalization: empty and `.` components vanish,
`..` removes the last component (at the filesystem root it is a no-op, as in
POSIX), anything else is appended. -/
def normStep (acc : List String) (c : String) : List String :=
  if c = "" ∨ c = "." then acc
  else if c = ".." then acc.dropLast
  else acc ++ [c]

/-- Lexical normalization of an absolute component list: the symlink-free
behaviour of `Path.resolve()`. -/
def normalize (comps : List String) : List String :=
  comps.foldl normStep []

/-- A parsed path argument, as `pathlib` sees a path string. -/
structure PathArg where
  absolute : Bool
  comps : List String
deriving DecidableEq, Repr

/-- Split a character list on `/`. -/
def splitSlash : List Char → List Char → List (List Char)
  | [], acc => [acc.reverse]
  | c :: rest, acc =>
      if c = '/' then acc.reverse :: splitSlash rest []
      else splitSlash rest (c :: acc)

/-- `pathlib` parsing of a path string: a leading `/` makes it absolute,
components are the non-empty fields between `/` separators. -/
def parsePath (s : String) : PathArg :=
  let cs := s.toList
  { absolute := cs.head? == some '/'
    comps := ((splitSlash cs []).map String.mk).filter (fun c => c ≠ "") }

/-- Render a root-relative component list the way `str(relative_path)` does
on POSIX: components joined by `/`. -/
def renderRel (k : List String) : String :=
  String.intercalate "/" k

/-- A file is hidden from enumeration iff its leaf name starts with `.`
(only the leaf is checked, never the directories above it).
`name.startswith(".")` is the test on the first character. -/
def hiddenLeaf (k : List String) : Bool :=
  match k.getLast? with
  | some n => n.toList.head? == some '.'
  | none => false

/-- Lexicographic comparison of character lists by code point, the order in
which Python's `sorted` puts the rendered paths (structural executable form
of the string order). -/
def listLe : List Char → List Char → Bool
  | [], _ => true
  | _ :: _, [] => false
  | a :: as, b :: bs =>
      if a < b then true
      else if b < a then false
      else listLe as bs

/-- Lexicographic string comparison by code point. -/
def strLe (a b : String) : Bool :=
  listLe a.toList b.toList

/-- Look up a file by its root-relative components. -/
def lookupFile (m : MemStore) (rel : List String) : Option FileData :=
  (m.files.find? (fun f => f.1 == rel)).map (fun f => f.2)

/-- `rel` names a directory: the root itself (assumed to exist), or a strict
prefix of some file's path. -/
def isDirRel (m : MemStore) (rel : List String) : Bool :=
  rel.isEmpty || m.files.any (fun f => rel.isPrefixOf f.1 && rel != f.1)

/-- `(MEM_DIR / path).resolve()`: absolute arguments replace the root,
relative ones are appended to it, then the result is normalized. -/
def canonOf (m : MemStore) (path : String) : List String :=
  let arg := parsePath path
  normalize (if arg.absolute then arg.comps else m.root ++ arg.comps)

/-- The canonical path's components relative to the root (meaningful when the
root is a prefix of the canonical path). -/
def relOf (m : MemStore) (path : String) : List String :=
  (canonOf m path).drop m.root.length

/-- The four failure kinds of `read_memory_file`, each carrying the path
string it was invoked with (`ValueError`, `FileNotFoundError`,
`ValueError`, `UnicodeDecodeError` in the source). -/
inductive ReadError where
  | sandboxViolation (path : String)
  | notFound (path : String)
  | notAFile (path : String)
  | invalidEncoding (path : String) (reason : String)
deriving DecidableEq, Repr

/-- `str(e)` for each raised error, with the messages of
`src/memchat/tools.py`. -/
def ReadError.message : ReadError → String
  | .sandboxViolation p => "Path outside memory directory: " ++ p
  | .notFound p => "Memory file not found: " ++ p
  | .notAFile p => "Path is not a file: " ++ p
  | .invalidEncoding p reason => "File " ++ p ++ " is not valid UTF-8: " ++ reason

/-- An absolute component list names an existing directory: an ancestor of
the memory root (or the root itself), or a directory of the tree below the
root (closed-world model of the filesystem around the root). -/
def dirExistsAbs (m : MemStore) (p : List String) : Bool :=
  p.isPrefixOf m.root || (m.root.isPrefixOf p && isDirRel m (p.drop m.root.length))

/-- The OS walk a `stat` of the raw (un-normalized) path performs: each
component is applied to the current position (like `normStep`), and the
position must be an existing, traversable directory before every step —
`a/../f` fails here when `a` does not exist, even though `resolve()` would
cancel the `..` lexically. -/
def walkRaw (m : MemStore) : List String → List String → Option (List String)
  | acc, [] => some acc
  | acc, c :: rest =>
      if dirExistsAbs m acc then walkRaw m (normStep acc c) rest else none

/-- The raw path `MEM_DIR / path` as the OS sees it when the code calls
`exists()` / `is_file()`: `none` when some intermediate directory of the
un-normalized path is missing (the stat fails with `ENOENT`). -/
def rawPath (m : MemStore) (path : String) : Option (List String) :=
  let arg := parsePath path
  walkRaw m [] (if arg.absolute then arg.comps else m.root ++ arg.comps)

/-- Universal-newline translation performed by `Path.read_text`'s text mode:
after decoding, `\r\n` and lone `\r` become `\n`. -/
def translateNLAux : List Char → List Char
  | [] => []
  | '\r' :: '\n' :: rest => '\n' :: translateNLAux rest
  | '\r' :: rest => '\n' :: translateNLAux rest
  | c :: rest => c :: translateNLAux rest

/-- Universal-newline translation on strings. -/
def translateNewlines (s : String) : String :=
  String.mk (translateNLAux s.toList)

/-- `read_memory_file` of `src/memchat/tools.py`: resolve `MEM_DIR / path`
lexically and check the canonical result is the root or below it (else
`SandboxViolation`); then `exists()` on the raw path (a failing stat or a
missing target is `NotFound`), `is_file()` on the raw path (a directory is
`NotAFile`), UTF-8 decoding (`InvalidEncoding`); on success
`read_text(encoding="utf-8")` returns the decoded text after
universal-newline translation. -/
def read_memory_file (m : MemStore) (path : String) : Except ReadError String :=
  if m.root.isPrefixOf (canonOf m path) then
    match rawPath m path with
    | none => .error (.notFound path)
    | some p =>
        let content := if m.root.isPrefixOf p then lookupFile m (p.drop m.root.length)
                       else none
        if !(dirExistsAbs m p || content.isSome) then
          .error (.notFound path)
        else
          match content with
          | none => .error (.notAFile path)
          | some (.text s) => .ok (translateNewlines s)
          | some (.binary reason) => .error (.invalidEncoding path reason)
  else
    .error (.sandboxViolation path)

/-- `list_memory_files` of `src/memchat/tools.py`: walk the tree, keep every
regular file whose leaf name does not start with `.`, render the relative
paths, and sort the strings. -/
def list_memory_files (m : MemStore) : List String :=
  List.insertionSort (fun a b => strLe a b = true)
    ((m.files.filter (fun f => !(hiddenLeaf f.1))).map (fun f => renderRel f.1))

/-- `execute_tool_call` of `src/memchat/tools.py`.  The second argument
models `arguments.get("path")` (`none` = key absent); Python's falsy test
`if not path` also rejects the empty string.  The return type `String` (no
exceptions) embeds the contract that dispatch never raises. -/
def execute_tool_call (tool_name : String) (pathArg : Option String)
    (m : MemStore) : String :=
  if tool_name = "list_memory_files" then
    let files := list_memory_files m
    if files.isEmpty then "No memory files found."
    else String.intercalate "\n" (files.map (fun f => "- " ++ f))
  else if tool_name = "read_memory_file" then
    match pathArg with
    | none => "Error: 'path' parameter is required"
    | some path =>
        if path = "" then "Error: 'path' parameter is required"
        else
          match read_memory_file m path with
          | .ok content => "Contents of " ++ path ++ ":\n\n" ++ content
          | .error e => "Error reading " ++ path ++ ": " ++ e.message
  else
    "Error: Unknown tool '" ++ tool_name ++ "'"

/-- Well-formedness of a store, true of any real on-disk tree: the root is
already normalized, file keys are non-empty normalized component lists,
and file paths (component-wise and rendered) are distinct. -/
def WF (m : MemStore) : Prop :=
  (∀ c ∈ m.root, c ≠ "" ∧ c ≠ "." ∧ c ≠ "..") ∧
  (∀ f ∈ m.files, f.1 ≠ [] ∧ ∀ c ∈ f.1, c ≠ "" ∧ c ≠ "." ∧ c ≠ "..") ∧
  (m.files.map (fun f => f.1)).Nodup ∧
  (m.files.map (fun f => renderRel f.1)).Nodup

/-!
## Conversation loop and orchestrator (`src/memchat/orchestrator.py`)

The backend (OpenAI) is the external collaborator; one augmented run's
interaction with it is modelled as a script: the list of outcomes of the
successive `chat.completions.create` calls, each either a failure (the
exception's text) or a `Response`.  `datetime.now().isoformat()` is modelled
by an abstract clock indexed by the dispatch position.  A tool call's
`arguments` JSON is modelled after parsing, projected to its `"path"` entry
(`none` = no such key); the loop's inner guard against malformed JSON is
therefore never triggered in the model and is not represented.
-/

/-- A `ToolCallRequest` from the backend: correlation id, tool name, and the
parsed arguments projected to the `"path"` entry. -/
structure ToolCall where
  id : String
  name : String
  args : Option String
deriving DecidableEq, Repr

/-- One backend assistant message: its content and its tool-call requests
(`[]` models both an empty list and `None`, which Python treats alike via
the falsy test `if response_message.tool_calls`). -/
structure Response where
  content : String
  tool_calls : List ToolCall
deriving DecidableEq, Repr

/-- One message of the conversation state. -/
inductive Message where
  | user (content : String)
  | assistant (content : String) (tool_calls : List ToolCall)
  | tool (tool_call_id : String) (content : String)
deriving DecidableEq, Repr

/-- A `ToolCallEvent` of the audit log: timestamp, tool name, arguments as
given, result string. -/
structure ToolCallEvent where
  timestamp : String
  tool_name : String
  arguments : Option String
  result : String
deriving DecidableEq, Repr

/-- Outcome of one augmented run: the returned text, the event log, the
final conversation state, and how many backend calls were made. -/
structure AugResult where
  output : String
  events : List ToolCallEvent
  messages : List Message
  callsMade : Nat
deriving DecidableEq, Repr

/-- The `n`-th backend call's outcome under a given script (a script shorter
than the calls the loop makes reads as a failed call). -/
def backendAt (script : List (Except String Response)) (n : Nat) :
    Except String Response :=
  script.getD n (.error "no response")

/-- Resolve one tool call: execute it via the registry, build its
`ToolCallEvent` (timestamped at dispatch position `i`) and the tool-result
message correlated by call id. -/
def dispatchOne (m : MemStore) (clock : Nat → String) (i : Nat)
    (tc : ToolCall) : ToolCallEvent × Message :=
  let result := execute_tool_call tc.name tc.args m
  (⟨clock i, tc.name, tc.args, result⟩, Message.tool tc.id result)

/-- The dispatch loop over one turn's tool calls, in source order. -/
def dispatchList (m : MemStore) (clock : Nat → String) :
    Nat → List ToolCall → List (ToolCallEvent × Message)
  | _, [] => []
  | i, tc :: rest => dispatchOne m clock i tc :: dispatchList m clock (i + 1) rest

/-- `_run_augmented_chat`: initial backend call; if it requests no tools its
content is returned with an empty log; otherwise every request of that turn
is dispatched in order, the results are appended as tool messages, and one
follow-up backend call is made whose content is returned (its own tool-call
requests, if any, are not dispatched).  A failed backend call yields the
error-description string, keeping the events collected so far. -/
def runAugmented (m : MemStore) (clock : Nat → String) (prompt : String)
    (script : List (Except String Response)) : AugResult :=
  let msgs0 := [Message.user prompt]
  match backendAt script 0 with
  | .error e => ⟨"Error in augmented chat: " ++ e, [], msgs0, 1⟩
  | .ok r1 =>
      let msgs1 := msgs0 ++ [Message.assistant r1.content r1.tool_calls]
      match r1.tool_calls with
      | [] => ⟨r1.content, [], msgs1, 1⟩
      | _ =>
          let pairs := dispatchList m clock 0 r1.tool_calls
          let events := pairs.map (fun p => p.1)
          let msgs2 := msgs1 ++ pairs.map (fun p => p.2)
          match backendAt script 1 with
          | .error e => ⟨"Error in augmented chat: " ++ e, events, msgs2, 2⟩
          | .ok r2 => ⟨r2.content, events, msgs2, 2⟩

/-- `_run_baseline_chat`: the baseline call's content on success, the
error-description string on failure. -/
def runBaseline : Except String String → String
  | .ok content => content
  | .error e => "Error in baseline chat: " ++ e

/-- `chat_run`: the orchestrator's returned triple
`(baseline, augmented, tool_events)`; the baseline call and the augmented
run are independent. -/
def chat_run (m : MemStore) (clock : Nat → String) (prompt : String)
    (baseline : Except String String)
    (script : List (Except String Response)) :
    String × String × List ToolCallEvent :=
  let aug := runAugmented m clock prompt script
  (runBaseline baseline, aug.output, aug.events)

/-!
## Auxiliary instances and lemmas
-/

instance {ε α : Type} [DecidableEq ε] [DecidableEq α] : DecidableEq (Except ε α)
  | .ok a, .ok b =>
      if h : a = b then .isTrue (by rw [h])
      else .isFalse (by intro hc; cases hc; exact h rfl)
  | .error a, .error b =>
      if h : a = b then .isTrue (by rw [h])
      else .isFalse (by intro hc; cases hc; exact h rfl)
  | .ok _, .error _ => .isFalse (by intro hc; cases hc)
  | .error _, .ok _ => .isFalse (by intro hc; cases hc)

theorem listLe_iff (as : List Char) : ∀ bs : List Char, listLe as bs = true ↔ ¬ List.lt bs as := by
  induction as with
  | nil =>
      intro bs
      constructor
      · intro _ h
        cases h
      · intro _
        rfl
  | cons a as ih =>
      intro bs
      cases bs with
      | nil =>
          constructor
          · intro h
            exact (Bool.false_ne_true h).elim
          · intro h
            exact (h (List.lt.nil a as)).elim
      | cons b bs =>
          by_cases hab : a < b
          · simp only [listLe, if_pos hab, true_iff]
            intro h
            cases h with
            | head _ _ hba => exact lt_asymm hab hba
            | tail h1 h2 h3 => exact h2 hab
          · by_cases hba : b < a
            · simp only [listLe, if_neg hab, if_pos hba]
              constructor
              · intro h
                exact (Bool.false_ne_true h).elim
              · intro h
                exact (h (List.lt.head bs as hba)).elim
            · simp only [listLe, if_neg hab, if_neg hba]
              rw [ih bs]
              constructor
              · intro h hlt
                cases hlt with
                | head _ _ h2 => exact hba h2
                | tail h1 h2 h3 => exact h h3
              · intro h hlt
                exact h (List.lt.tail hba hab hlt)

theorem strLe_iff_le (a b : String) : strLe a b = true ↔ a ≤ b := by
  have h1 : strLe a b = true ↔ ¬ List.lt b.toList a.toList := listLe_iff a.toList b.toList
  have h2 : List.lt b.toList a.toList ↔ b < a := by
    rw [String.lt_iff_toList_lt]
    exact List.lt_iff_lex_lt b.toList a.toList
  rw [h1, h2, not_lt]

instance : IsTotal String (fun a b => strLe a b = true) :=
  ⟨fun a b => by
    rcases le_total a b with h | h
    · exact .inl ((strLe_iff_le a b).mpr h)
    · exact .inr ((strLe_iff_le b a).mpr h)⟩

instance : IsTrans String (fun a b => strLe a b = true) :=
  ⟨fun a b c hab hbc =>
    (strLe_iff_le a c).mpr
      (le_trans ((strLe_iff_le a b).mp hab) ((strLe_iff_le b c).mp hbc))⟩

theorem dispatchList_map_meta (m : MemStore) (clock : Nat → String) :
    ∀ (i : Nat) (calls : List ToolCall),
      (dispatchList m clock i calls).map (fun p => (p.1.tool_name, p.1.arguments)) =
        calls.map (fun c => (c.name, c.args))
  | _, [] => rfl
  | i, tc :: rest => by
      simp only [dispatchList, dispatchOne, List.map_cons]
      exact congrArg _ (dispatchList_map_meta m clock (i + 1) rest)

theorem dispatchList_length (m : MemStore) (clock : Nat → String) :
    ∀ (i : Nat) (calls : List ToolCall),
      (dispatchList m clock i calls).length = calls.length
  | _, [] => rfl
  | i, _ :: rest => by
      simp only [dispatchList, List.length_cons]
      exact congrArg _ (dispatchList_length m clock (i + 1) rest)

theorem find_pair_of_mem (k : List String) (d : FileData) :
    ∀ l : List (List String × FileData),
      (l.map (fun f => f.1)).Nodup → (k, d) ∈ l →
      l.find? (fun f => f.1 == k) = some (k, d) := by
  intro l
  induction l with
  | nil => intro _ hmem; cases hmem
  | cons hd tl ih =>
      intro hnd hmem
      by_cases h : hd.1 = k
      · have hhd : hd = (k, d) := by
          rcases List.mem_cons.mp hmem with heq | htl
          · exact heq.symm
          · exfalso
            have hk : k ∈ tl.map (fun f => f.1) :=
              List.mem_map.mpr ⟨(k, d), htl, rfl⟩
            rw [List.map_cons, List.nodup_cons] at hnd
            exact hnd.1 (h ▸ hk)
        rw [List.find?_cons_of_pos _ (by simp [h]), hhd]
      · rw [List.find?_cons_of_neg _ (by simp [h])]
        apply ih
        · rw [List.map_cons, List.nodup_cons] at hnd
          exact hnd.2
        · rcases List.mem_cons.mp hmem with heq | htl
          · exact absurd (congrArg Prod.fst heq.symm) h
          · exact htl

theorem lookupFile_eq_some (m : MemStore) (k : List String) (d : FileData)
    (hnd : (m.files.map (fun f => f.1)).Nodup) (hmem : (k, d) ∈ m.files) :
    lookupFile m k = some d := by
  unfold lookupFile
  rw [find_pair_of_mem k d m.files hnd hmem]
  rfl

theorem foldl_normStep_good (l : List String)
    (hl : ∀ c ∈ l, c ≠ "" ∧ c ≠ "." ∧ c ≠ "..") :
    ∀ acc, l.foldl normStep acc = acc ++ l := by
  induction l with
  | nil => intro acc; simp
  | cons c cs ih =>
      intro acc
      have hc := hl c (by simp)
      have hrest : ∀ x ∈ cs, x ≠ "" ∧ x ≠ "." ∧ x ≠ ".." := fun x hx => hl x (by simp [hx])
      simp only [List.foldl_cons]
      rw [show normStep acc c = acc ++ [c] by simp [normStep, hc.1, hc.2.1, hc.2.2]]
      rw [ih hrest (acc ++ [c])]
      simp

theorem normalize_append (root k : List String)
    (hr : ∀ c ∈ root, c ≠ "" ∧ c ≠ "." ∧ c ≠ "..")
    (hk : ∀ c ∈ k, c ≠ "" ∧ c ≠ "." ∧ c ≠ "..") :
    normalize (root ++ k) = root ++ k := by
  unfold normalize
  rw [List.foldl_append]
  rw [foldl_normStep_good root hr []]
  simp only [List.nil_append]
  rw [foldl_normStep_good k hk root]

theorem walkRaw_some (m : MemStore) :
    ∀ (l acc p : List String), walkRaw m acc l = some p → p = l.foldl normStep acc := by
  intro l
  induction l with
  | nil =>
      intro acc p h
      simp only [walkRaw, Option.some.injEq] at h
      simp [h.symm]
  | cons c rest ih =>
      intro acc p h
      by_cases hd : dirExistsAbs m acc = true
      · simp only [walkRaw, hd, if_true] at h
        simpa using ih (normStep acc c) p h
      · simp [walkRaw, hd] at h

theorem rawPath_eq_canonOf (m : MemStore) (path : String) (p : List String)
    (h : rawPath m path = some p) : p = canonOf m path :=
  walkRaw_some m _ [] p h

/-!
## Claims
-/

/-- Backend script for the C2 counterexample: the first response requests one
tool call, the second response requests another tool call (after having seen
the first round's results), the third would end the run. -/
def c2Script : List (Except String Response) :=
  [.ok ⟨"c1", [⟨"id1", "list_memory_files", none⟩]⟩,
   .ok ⟨"c2", [⟨"id2", "read_memory_file", some "file1.txt"⟩]⟩,
   .ok ⟨"c3", []⟩]

/-- C1, counterexample: the relative path `subdir/../file1.txt` contains a
`..` segment (and the directory `subdir` exists, so the raw-path stat
succeeds), yet `read` does not fail with `SandboxViolation` — it
canonicalizes to `file1.txt` inside the root and returns the file's
content. -/
theorem c1_counterexample :
    (parsePath "subdir/../file1.txt").absolute = false ∧
    ".." ∈ (parsePath "subdir/../file1.txt").comps ∧
    read_memory_file ⟨["m"], [(["file1.txt"], FileData.text "hello"),
        (["subdir", "nested.txt"], FileData.text "n")]⟩
        "subdir/../file1.txt" = Except.ok "hello" := by
  decide

/-- C1 (amended): for every path — relative or absolute — whose canonical
resolution lies outside the memory root, `read` fails with
`SandboxViolation` naming the offending path and never returns file content;
the check runs on the canonicalized path before any file access, so the
outcome is independent of the files present in the store.  (A relative path
whose `..` segments cancel out inside the root is, by the same check,
allowed.) -/
theorem c1_amended_sandbox (m : MemStore) (path : String)
    (files2 : List (List String × FileData))
    (h : m.root.isPrefixOf (canonOf m path) = false) :
    read_memory_file m path = Except.error (ReadError.sandboxViolation path) ∧
    read_memory_file ⟨m.root, files2⟩ path =
      Except.error (ReadError.sandboxViolation path) := by
  have h2 : canonOf ⟨m.root, files2⟩ path = canonOf m path := rfl
  constructor
  · simp [read_memory_file, h]
  · simp [read_memory_file, h2, h]

theorem c1_amended_sandbox_witness :
    (MemStore.mk ["m"] [(["file1.txt"], FileData.text "hello")]).root.isPrefixOf
        (canonOf ⟨["m"], [(["file1.txt"], FileData.text "hello")]⟩ "/etc/passwd") = false ∧
    read_memory_file ⟨["m"], [(["file1.txt"], FileData.text "hello")]⟩ "/etc/passwd" =
      Except.error (ReadError.sandboxViolation "/etc/passwd") :=
  ⟨by decide,
   (c1_amended_sandbox ⟨["m"], [(["file1.txt"], FileData.text "hello")]⟩
      "/etc/passwd" [(["file1.txt"], FileData.text "hello")] (by decide)).1⟩

/-- C2, counterexample: with a backend script whose second response again
requests a tool after seeing the first round's results, the loop does not
run a further dispatch round — the event log keeps exactly the one event of
round one, the second response's content is returned as the output (no
fatal turn-limit error), and only two backend calls are made (the third
scripted response is never consumed). -/
theorem c2_counterexample :
    backendAt c2Script 1 =
      Except.ok ⟨"c2", [⟨"id2", "read_memory_file", some "file1.txt"⟩]⟩ ∧
    (Response.mk "c2" [⟨"id2", "read_memory_file", some "file1.txt"⟩]).tool_calls ≠ [] ∧
    (runAugmented ⟨["m"], [(["file1.txt"], FileData.text "hello")]⟩
        (fun _ => "t") "p" c2Script).events.length = 1 ∧
    (runAugmented ⟨["m"], [(["file1.txt"], FileData.text "hello")]⟩
        (fun _ => "t") "p" c2Script).output = "c2" ∧
    (runAugmented ⟨["m"], [(["file1.txt"], FileData.text "hello")]⟩
        (fun _ => "t") "p" c2Script).callsMade = 2 := by
  refine ⟨rfl, by decide, rfl, rfl, rfl⟩

/-- C2 (amended): the loop has a fixed two-call shape — it makes at most two
backend calls, and the event log consists exactly of the events dispatched
from the first response's tool-call requests; requests the backend makes
after seeing tool results are never dispatched, there is no configurable
round maximum and no fatal turn-limit error, and every run terminates within
this fixed bound. -/
theorem c2_amended_two_call_shape (m : MemStore) (clock : Nat → String)
    (prompt : String) (script : List (Except String Response)) :
    (runAugmented m clock prompt script).callsMade ≤ 2 ∧
    (runAugmented m clock prompt script).events =
      (match backendAt script 0 with
       | .ok r1 => (dispatchList m clock 0 r1.tool_calls).map (fun p => p.1)
       | .error _ => []) := by
  rcases h0 : backendAt script 0 with e1 | r1
  · simp [runAugmented, h0]
  · cases hc : r1.tool_calls with
    | nil => simp [runAugmented, h0, hc, dispatchList]
    | cons tc rest =>
        rcases h1 : backendAt script 1 with e2 | r2 <;>
          simp [runAugmented, h0, hc, h1]

/-- C3: registry dispatch always returns a plain string (the return type of
`execute_tool_call` — no exception channel exists): an unknown tool name
yields the unknown-tool error string, a missing `path` argument yields the
missing-parameter error string, and every one of the four Memory Store
failure kinds is rendered as an error string naming the path. -/
theorem c3_registry_total_strings (m : MemStore) :
    (∀ tool_name args, tool_name ≠ "list_memory_files" →
        tool_name ≠ "read_memory_file" →
        execute_tool_call tool_name args m =
          "Error: Unknown tool '" ++ tool_name ++ "'") ∧
    execute_tool_call "read_memory_file" none m =
      "Error: 'path' parameter is required" ∧
    (∀ path e, path ≠ "" → read_memory_file m path = Except.error e →
        execute_tool_call "read_memory_file" (some path) m =
          "Error reading " ++ path ++ ": " ++ e.message) := by
  refine ⟨?_, rfl, ?_⟩
  · intro tool_name args h1 h2
    simp [execute_tool_call, h1, h2]
  · intro path e hne he
    simp [execute_tool_call, hne, he]

theorem c3_registry_total_strings_witness :
    ("unknown_tool" : String) ≠ "list_memory_files" ∧
    ("unknown_tool" : String) ≠ "read_memory_file" ∧
    ("nonexistent.txt" : String) ≠ "" ∧
    read_memory_file ⟨["m"], [(["file1.txt"], FileData.text "hello")]⟩
        "nonexistent.txt" = Except.error (ReadError.notFound "nonexistent.txt") ∧
    execute_tool_call "unknown_tool" none
        ⟨["m"], [(["file1.txt"], FileData.text "hello")]⟩ =
      "Error: Unknown tool 'unknown_tool'" ∧
    execute_tool_call "read_memory_file" none
        ⟨["m"], [(["file1.txt"], FileData.text "hello")]⟩ =
      "Error: 'path' parameter is required" ∧
    execute_tool_call "read_memory_file" (some "nonexistent.txt")
        ⟨["m"], [(["file1.txt"], FileData.text "hello")]⟩ =
      "Error reading nonexistent.txt: Memory file not found: nonexistent.txt" := by
  refine ⟨by decide, by decide, by decide, by decide, ?_, ?_, ?_⟩
  · exact (c3_registry_total_strings
      ⟨["m"], [(["file1.txt"], FileData.text "hello")]⟩).1
      "unknown_tool" none (by decide) (by decide)
  · exact (c3_registry_total_strings
      ⟨["m"], [(["file1.txt"], FileData.text "hello")]⟩).2.1
  · have h := (c3_registry_total_strings
      ⟨["m"], [(["file1.txt"], FileData.text "hello")]⟩).2.2
      "nonexistent.txt" (ReadError.notFound "nonexistent.txt") (by decide) (by decide)
    rw [h]
    decide

/-- C10: a `read_memory_file` dispatch whose argument mapping binds `path`
to the empty string is treated identically to a missing `path` argument —
the missing-required-parameter error string is returned and the memory
store is never consulted (the result is the same for every store, with no
sandbox check and no file access). -/
theorem c10_empty_path_like_missing (m m2 : MemStore) :
    execute_tool_call "read_memory_file" (some "") m =
      "Error: 'path' parameter is required" ∧
    execute_tool_call "read_memory_file" (some "") m =
      execute_tool_call "read_memory_file" none m2 ∧
    execute_tool_call "read_memory_file" (some "") m =
      execute_tool_call "read_memory_file" (some "") m2 :=
  ⟨rfl, rfl, rfl⟩

/-- C4: when a turn carries two or more tool-call requests, the event log
holds exactly one event per request, in exactly the source order in which
the backend returned them — never reordered and never deduplicated
(identical repeated requests each produce their own event, as the
positional correspondence shows). -/
theorem c4_event_order (m : MemStore) (clock : Nat → String) (prompt : String)
    (script : List (Except String Response)) (r1 : Response)
    (h1 : backendAt script 0 = Except.ok r1) (h2 : 2 ≤ r1.tool_calls.length) :
    (runAugmented m clock prompt script).events.length = r1.tool_calls.length ∧
    (runAugmented m clock prompt script).events.map (fun e => (e.tool_name, e.arguments)) =
      r1.tool_calls.map (fun c => (c.name, c.args)) := by
  obtain ⟨tc, rest, hc⟩ : ∃ tc rest, r1.tool_calls = tc :: rest := by
    cases hcs : r1.tool_calls with
    | nil => rw [hcs] at h2; exact absurd h2 (by simp)
    | cons a l => exact ⟨a, l, rfl⟩
  rcases hb2 : backendAt script 1 with e2 | r2 <;>
    · simp only [runAugmented, h1, hc, hb2, List.map_map]
      rw [← hc]
      constructor
      · rw [List.length_map]
        exact dispatchList_length m clock 0 r1.tool_calls
      · exact dispatchList_map_meta m clock 0 r1.tool_calls

theorem c4_event_order_witness :
    backendAt [Except.ok (Response.mk "c1"
        [⟨"idA", "read_memory_file", some "f.txt"⟩,
         ⟨"idA", "read_memory_file", some "f.txt"⟩]),
      Except.ok (Response.mk "c2" [])] 0 =
      Except.ok (Response.mk "c1"
        [⟨"idA", "read_memory_file", some "f.txt"⟩,
         ⟨"idA", "read_memory_file", some "f.txt"⟩]) ∧
    2 ≤ (Response.mk "c1"
        [⟨"idA", "read_memory_file", some "f.txt"⟩,
         ⟨"idA", "read_memory_file", some "f.txt"⟩]).tool_calls.length ∧
    ((runAugmented ⟨["m"], []⟩ (fun _ => "t") "p"
        [Except.ok (Response.mk "c1"
          [⟨"idA", "read_memory_file", some "f.txt"⟩,
           ⟨"idA", "read_memory_file", some "f.txt"⟩]),
         Except.ok (Response.mk "c2" [])]).events.length =
      (Response.mk "c1"
        [⟨"idA", "read_memory_file", some "f.txt"⟩,
         ⟨"idA", "read_memory_file", some "f.txt"⟩]).tool_calls.length ∧
    (runAugmented ⟨["m"], []⟩ (fun _ => "t") "p"
        [Except.ok (Response.mk "c1"
          [⟨"idA", "read_memory_file", some "f.txt"⟩,
           ⟨"idA", "read_memory_file", some "f.txt"⟩]),
         Except.ok (Response.mk "c2" [])]).events.map
        (fun e => (e.tool_name, e.arguments)) =
      (Response.mk "c1"
        [⟨"idA", "read_memory_file", some "f.txt"⟩,
         ⟨"idA", "read_memory_file", some "f.txt"⟩]).tool_calls.map
        (fun c => (c.name, c.args))) :=
  ⟨by decide, by decide,
   c4_event_order ⟨["m"], []⟩ (fun _ => "t") "p"
     [Except.ok (Response.mk "c1"
        [⟨"idA", "read_memory_file", some "f.txt"⟩,
         ⟨"idA", "read_memory_file", some "f.txt"⟩]),
      Except.ok (Response.mk "c2" [])]
     (Response.mk "c1"
        [⟨"idA", "read_memory_file", some "f.txt"⟩,
         ⟨"idA", "read_memory_file", some "f.txt"⟩])
     (by decide) (by decide)⟩

/-- C7: when the backend's first response carries zero tool-call requests,
the run terminates immediately — a single backend call, an empty event log,
and the augmented output is that response's assistant content unchanged. -/
theorem c7_no_tool_calls (m : MemStore) (clock : Nat → String) (prompt : String)
    (script : List (Except String Response)) (r1 : Response)
    (h1 : backendAt script 0 = Except.ok r1) (h2 : r1.tool_calls = []) :
    (runAugmented m clock prompt script).output = r1.content ∧
    (runAugmented m clock prompt script).events = [] ∧
    (runAugmented m clock prompt script).callsMade = 1 := by
  simp [runAugmented, h1, h2]

theorem c7_no_tool_calls_witness :
    backendAt [Except.ok (Response.mk "plain answer" [])] 0 =
      Except.ok (Response.mk "plain answer" []) ∧
    (Response.mk "plain answer" []).tool_calls = [] ∧
    ((runAugmented ⟨["m"], []⟩ (fun _ => "t") "p"
        [Except.ok (Response.mk "plain answer" [])]).output = "plain answer" ∧
     (runAugmented ⟨["m"], []⟩ (fun _ => "t") "p"
        [Except.ok (Response.mk "plain answer" [])]).events = [] ∧
     (runAugmented ⟨["m"], []⟩ (fun _ => "t") "p"
        [Except.ok (Response.mk "plain answer" [])]).callsMade = 1) :=
  ⟨by decide, by decide,
   c7_no_tool_calls ⟨["m"], []⟩ (fun _ => "t") "p"
     [Except.ok (Response.mk "plain answer" [])]
     (Response.mk "plain answer" []) (by decide) (by decide)⟩

/-- Backend script for C8: the first response requests `read_memory_file`
on the given path, the second ends the run. -/
def c8Script (cid c1 c2 path : String) : List (Except String Response) :=
  [.ok ⟨c1, [⟨cid, "read_memory_file", some path⟩]⟩, .ok ⟨c2, []⟩]

/-- C8: when the backend requests `read_memory_file` with a path that does
not exist under the root, exactly one event is appended, its result string
is the not-found error naming the path, the loop hands that string back to
the backend as a tool-result message correlated by call id, and the run
completes normally with the follow-up response's content. -/
theorem c8_notfound_completes (m : MemStore) (clock : Nat → String)
    (prompt cid c1 c2 path : String)
    (hne : path ≠ "")
    (hpre : m.root.isPrefixOf (canonOf m path) = true)
    (hlook : lookupFile m (relOf m path) = none)
    (hdir : isDirRel m (relOf m path) = false) :
    (runAugmented m clock prompt (c8Script cid c1 c2 path)).events.length = 1 ∧
    (runAugmented m clock prompt (c8Script cid c1 c2 path)).events.map
        (fun e => e.result) =
      ["Error reading " ++ path ++ ": Memory file not found: " ++ path] ∧
    (runAugmented m clock prompt (c8Script cid c1 c2 path)).output = c2 ∧
    (runAugmented m clock prompt (c8Script cid c1 c2 path)).callsMade = 2 ∧
    Message.tool cid ("Error reading " ++ path ++ ": Memory file not found: " ++ path)
      ∈ (runAugmented m clock prompt (c8Script cid c1 c2 path)).messages := by
  have hlook2 : lookupFile m ((canonOf m path).drop m.root.length) = none := hlook
  have hdir2 : isDirRel m ((canonOf m path).drop m.root.length) = false := hdir
  have hrelne : relOf m path ≠ [] := by
    intro h0
    rw [h0] at hdir
    simp [isDirRel] at hdir
  have hnp : (canonOf m path).isPrefixOf m.root = false := by
    cases hcc : (canonOf m path).isPrefixOf m.root with
    | false => rfl
    | true =>
        exfalso
        have h1 := List.isPrefixOf_iff_prefix.mp hcc
        have h2 := List.isPrefixOf_iff_prefix.mp hpre
        have heq : canonOf m path = m.root :=
          h1.sublist.eq_of_length (Nat.le_antisymm h1.length_le h2.length_le)
        apply hrelne
        unfold relOf
        rw [heq]
        exact List.drop_length m.root
  have hdirAbs : dirExistsAbs m (canonOf m path) = false := by
    simp [dirExistsAbs, hpre, hdir2, hnp]
  have hread : read_memory_file m path = Except.error (ReadError.notFound path) := by
    cases hw : rawPath m path with
    | none => simp [read_memory_file, hpre, hw]
    | some p =>
        have hp := rawPath_eq_canonOf m path p hw
        subst hp
        simp [read_memory_file, hpre, hw, hlook2, hdirAbs]
  have hexec : execute_tool_call "read_memory_file" (some path) m =
      "Error reading " ++ path ++ ": Memory file not found: " ++ path := by
    simp [execute_tool_call, hne, hread, ReadError.message, String.append_assoc]
    rw [← String.append_assoc ": " "Memory file not found: " path]
    rfl
  simp [runAugmented, c8Script, backendAt, dispatchList, dispatchOne, hexec]

theorem c8_notfound_completes_witness :
    ("nonexistent.txt" : String) ≠ "" ∧
    (MemStore.mk ["m"] [(["file1.txt"], FileData.text "hello")]).root.isPrefixOf
      (canonOf ⟨["m"], [(["file1.txt"], FileData.text "hello")]⟩ "nonexistent.txt") = true ∧
    lookupFile ⟨["m"], [(["file1.txt"], FileData.text "hello")]⟩
      (relOf ⟨["m"], [(["file1.txt"], FileData.text "hello")]⟩ "nonexistent.txt") = none ∧
    isDirRel ⟨["m"], [(["file1.txt"], FileData.text "hello")]⟩
      (relOf ⟨["m"], [(["file1.txt"], FileData.text "hello")]⟩ "nonexistent.txt") = false ∧
    ((runAugmented ⟨["m"], [(["file1.txt"], FileData.text "hello")]⟩ (fun _ => "t") "p"
        (c8Script "id1" "c1" "final" "nonexistent.txt")).events.length = 1 ∧
     (runAugmented ⟨["m"], [(["file1.txt"], FileData.text "hello")]⟩ (fun _ => "t") "p"
        (c8Script "id1" "c1" "final" "nonexistent.txt")).events.map (fun e => e.result) =
       ["Error reading " ++ "nonexistent.txt" ++ ": Memory file not found: " ++
         "nonexistent.txt"] ∧
     (runAugmented ⟨["m"], [(["file1.txt"], FileData.text "hello")]⟩ (fun _ => "t") "p"
        (c8Script "id1" "c1" "final" "nonexistent.txt")).output = "final" ∧
     (runAugmented ⟨["m"], [(["file1.txt"], FileData.text "hello")]⟩ (fun _ => "t") "p"
        (c8Script "id1" "c1" "final" "nonexistent.txt")).callsMade = 2 ∧
     Message.tool "id1" ("Error reading " ++ "nonexistent.txt" ++
         ": Memory file not found: " ++ "nonexistent.txt")
       ∈ (runAugmented ⟨["m"], [(["file1.txt"], FileData.text "hello")]⟩ (fun _ => "t") "p"
           (c8Script "id1" "c1" "final" "nonexistent.txt")).messages) :=
  ⟨by decide, by decide, by decide, by decide,
   c8_notfound_completes ⟨["m"], [(["file1.txt"], FileData.text "hello")]⟩
     (fun _ => "t") "p" "id1" "c1" "final" "nonexistent.txt"
     (by decide) (by decide) (by decide) (by decide)⟩

/-- C9: a failing backend call aborts only its own call.  A failed baseline
call yields the baseline error-description string while the augmented
output and event log are untouched; a failed augmented call (first or
follow-up) yields the augmented error-description string while the baseline
output is untouched and every event collected before the failure stays in
the returned triple. -/
theorem c9_failure_isolation (m : MemStore) (clock : Nat → String)
    (prompt : String) (b : Except String String)
    (script : List (Except String Response)) :
    (∀ e, (chat_run m clock prompt (Except.error e) script).1 =
            "Error in baseline chat: " ++ e ∧
          (chat_run m clock prompt (Except.error e) script).2 =
            (chat_run m clock prompt b script).2) ∧
    (∀ e, backendAt script 0 = Except.error e →
          (chat_run m clock prompt b script).2.1 = "Error in augmented chat: " ++ e ∧
          (chat_run m clock prompt b script).2.2 = [] ∧
          (chat_run m clock prompt b script).1 = runBaseline b) ∧
    (∀ r1 tc rest e2, backendAt script 0 = Except.ok r1 →
          r1.tool_calls = tc :: rest →
          backendAt script 1 = Except.error e2 →
          (chat_run m clock prompt b script).2.1 = "Error in augmented chat: " ++ e2 ∧
          (chat_run m clock prompt b script).2.2 =
            (dispatchList m clock 0 (tc :: rest)).map (fun p => p.1) ∧
          (chat_run m clock prompt b script).1 = runBaseline b) := by
  refine ⟨?_, ?_, ?_⟩
  · intro e
    exact ⟨rfl, rfl⟩
  · intro e h0
    simp [chat_run, runAugmented, h0]
  · intro r1 tc rest e2 h0 hc h1
    simp [chat_run, runAugmented, h0, hc, h1]

theorem c9_failure_isolation_witness :
    backendAt [Except.ok (Response.mk "c1" [⟨"id1", "read_memory_file", some "x"⟩]),
        Except.error "rate limit"] 0 =
      Except.ok (Response.mk "c1" [⟨"id1", "read_memory_file", some "x"⟩]) ∧
    (Response.mk "c1" [⟨"id1", "read_memory_file", some "x"⟩]).tool_calls =
      [⟨"id1", "read_memory_file", some "x"⟩] ∧
    backendAt [Except.ok (Response.mk "c1" [⟨"id1", "read_memory_file", some "x"⟩]),
        Except.error "rate limit"] 1 = Except.error "rate limit" ∧
    ((chat_run ⟨["m"], []⟩ (fun _ => "t") "p" (Except.ok "baseline answer")
        [Except.ok (Response.mk "c1" [⟨"id1", "read_memory_file", some "x"⟩]),
         Except.error "rate limit"]).2.1 =
      "Error in augmented chat: " ++ "rate limit" ∧
     (chat_run ⟨["m"], []⟩ (fun _ => "t") "p" (Except.ok "baseline answer")
        [Except.ok (Response.mk "c1" [⟨"id1", "read_memory_file", some "x"⟩]),
         Except.error "rate limit"]).2.2 =
       (dispatchList ⟨["m"], []⟩ (fun _ => "t") 0
         [⟨"id1", "read_memory_file", some "x"⟩]).map (fun p => p.1) ∧
     (chat_run ⟨["m"], []⟩ (fun _ => "t") "p" (Except.ok "baseline answer")
        [Except.ok (Response.mk "c1" [⟨"id1", "read_memory_file", some "x"⟩]),
         Except.error "rate limit"]).1 = runBaseline (Except.ok "baseline answer")) :=
  ⟨by decide, by decide, by decide,
   (c9_failure_isolation ⟨["m"], []⟩ (fun _ => "t") "p" (Except.ok "baseline answer")
      [Except.ok (Response.mk "c1" [⟨"id1", "read_memory_file", some "x"⟩]),
       Except.error "rate limit"]).2.2
     (Response.mk "c1" [⟨"id1", "read_memory_file", some "x"⟩])
     ⟨"id1", "read_memory_file", some "x"⟩ [] "rate limit"
     (by decide) (by decide) (by decide)⟩

/-- C5: `enumerate()` returns a lexicographically sorted sequence holding,
exactly once, the rendered relative path of every regular file whose leaf
name does not start with `.`; files whose leaf name starts with `.` are
excluded; only the file's own leaf name is checked, so a non-hidden file
inside a hidden subdirectory is still included. -/
theorem c5_enumerate_spec (m : MemStore) (h : WF m) :
    List.Sorted (· ≤ ·) (list_memory_files m) ∧
    (∀ s, s ∈ list_memory_files m ↔
        ∃ f, f ∈ m.files ∧ hiddenLeaf f.1 = false ∧ renderRel f.1 = s) ∧
    (∀ f, f ∈ m.files → hiddenLeaf f.1 = false →
        (list_memory_files m).count (renderRel f.1) = 1) ∧
    (∀ f, f ∈ m.files → hiddenLeaf f.1 = true →
        renderRel f.1 ∉ list_memory_files m) ∧
    (∀ f, f ∈ m.files → hiddenLeaf f.1 = false →
        (∃ c ∈ f.1.dropLast, c.toList.head? = some '.') →
        renderRel f.1 ∈ list_memory_files m) := by
  obtain ⟨hroot, hkeys, hknd, hrnd⟩ := h
  have hperm : List.Perm (list_memory_files m)
      ((m.files.filter (fun f => !(hiddenLeaf f.1))).map (fun f => renderRel f.1)) :=
    List.perm_insertionSort _ _
  have hmem_iff : ∀ s, s ∈ list_memory_files m ↔
      ∃ f, f ∈ m.files ∧ hiddenLeaf f.1 = false ∧ renderRel f.1 = s := by
    intro s
    rw [hperm.mem_iff]
    simp only [List.mem_map, List.mem_filter, Bool.not_eq_true']
    constructor
    · rintro ⟨f, ⟨hf, hh⟩, hr⟩
      exact ⟨f, hf, hh, hr⟩
    · rintro ⟨f, hf, hh, hr⟩
      exact ⟨f, ⟨hf, hh⟩, hr⟩
  refine ⟨?_, hmem_iff, ?_, ?_, ?_⟩
  · have hs := List.sorted_insertionSort (fun a b => strLe a b = true)
      ((m.files.filter (fun f => !(hiddenLeaf f.1))).map (fun f => renderRel f.1))
    exact hs.imp (fun hab => (strLe_iff_le _ _).mp hab)
  · intro f hf hh
    have hmem : renderRel f.1 ∈
        (m.files.filter (fun f => !(hiddenLeaf f.1))).map (fun f => renderRel f.1) :=
      List.mem_map.mpr ⟨f, List.mem_filter.mpr ⟨hf, by simp [hh]⟩, rfl⟩
    have hnd : ((m.files.filter (fun f => !(hiddenLeaf f.1))).map
        (fun f => renderRel f.1)).Nodup :=
      List.Nodup.sublist ((List.filter_sublist m.files).map _) hrnd
    rw [hperm.count_eq]
    exact List.count_eq_one_of_mem hnd hmem
  · intro f hf hh hmem
    obtain ⟨g, hg, hgh, hgr⟩ := (hmem_iff (renderRel f.1)).mp hmem
    have heq : g = f := List.inj_on_of_nodup_map hrnd hg hf hgr
    rw [heq] at hgh
    rw [hgh] at hh
    exact Bool.false_ne_true hh
  · intro f hf hh _
    exact (hmem_iff (renderRel f.1)).mpr ⟨f, hf, hh, rfl⟩

theorem c5_enumerate_spec_witness :
    WF ⟨["m"], [(["b.txt"], FileData.text "B"), ([".hidden"], FileData.text "H"),
        ([".hdir", "vis.txt"], FileData.text "V"), (["a.txt"], FileData.text "A")]⟩ ∧
    (List.Sorted (· ≤ ·) (list_memory_files ⟨["m"],
        [(["b.txt"], FileData.text "B"), ([".hidden"], FileData.text "H"),
         ([".hdir", "vis.txt"], FileData.text "V"), (["a.txt"], FileData.text "A")]⟩) ∧
     (∀ s, s ∈ list_memory_files ⟨["m"],
        [(["b.txt"], FileData.text "B"), ([".hidden"], FileData.text "H"),
         ([".hdir", "vis.txt"], FileData.text "V"), (["a.txt"], FileData.text "A")]⟩ ↔
        ∃ f, f ∈ (MemStore.mk ["m"]
          [(["b.txt"], FileData.text "B"), ([".hidden"], FileData.text "H"),
           ([".hdir", "vis.txt"], FileData.text "V"), (["a.txt"], FileData.text "A")]).files ∧
          hiddenLeaf f.1 = false ∧ renderRel f.1 = s) ∧
     (∀ f, f ∈ (MemStore.mk ["m"]
          [(["b.txt"], FileData.text "B"), ([".hidden"], FileData.text "H"),
           ([".hdir", "vis.txt"], FileData.text "V"), (["a.txt"], FileData.text "A")]).files →
        hiddenLeaf f.1 = false →
        (list_memory_files ⟨["m"],
          [(["b.txt"], FileData.text "B"), ([".hidden"], FileData.text "H"),
           ([".hdir", "vis.txt"], FileData.text "V"),
           (["a.txt"], FileData.text "A")]⟩).count (renderRel f.1) = 1) ∧
     (∀ f, f ∈ (MemStore.mk ["m"]
          [(["b.txt"], FileData.text "B"), ([".hidden"], FileData.text "H"),
           ([".hdir", "vis.txt"], FileData.text "V"), (["a.txt"], FileData.text "A")]).files →
        hiddenLeaf f.1 = true →
        renderRel f.1 ∉ list_memory_files ⟨["m"],
          [(["b.txt"], FileData.text "B"), ([".hidden"], FileData.text "H"),
           ([".hdir", "vis.txt"], FileData.text "V"), (["a.txt"], FileData.text "A")]⟩) ∧
     (∀ f, f ∈ (MemStore.mk ["m"]
          [(["b.txt"], FileData.text "B"), ([".hidden"], FileData.text "H"),
           ([".hdir", "vis.txt"], FileData.text "V"), (["a.txt"], FileData.text "A")]).files →
        hiddenLeaf f.1 = false →
        (∃ c ∈ f.1.dropLast, c.toList.head? = some '.') →
        renderRel f.1 ∈ list_memory_files ⟨["m"],
          [(["b.txt"], FileData.text "B"), ([".hidden"], FileData.text "H"),
           ([".hdir", "vis.txt"], FileData.text "V"), (["a.txt"], FileData.text "A")]⟩)) :=
  ⟨by
    refine ⟨by decide, by decide, by decide, by decide⟩,
   c5_enumerate_spec ⟨["m"], [(["b.txt"], FileData.text "B"), ([".hidden"], FileData.text "H"),
      ([".hdir", "vis.txt"], FileData.text "V"), (["a.txt"], FileData.text "A")]⟩
     ⟨by decide, by decide, by decide, by decide⟩⟩

/-- C6, code-bug evidence: `read_text` opens in text mode with universal
newlines, so a file whose bytes decode (as valid UTF-8) to
`"line1\r\nline2"` is returned as `"line1\nline2"` — not the exact decoded
bytes, and a write/read round-trip fails for CR-containing strings.  The
spec requires the decoded text verbatim with no transformation. -/
theorem c6_newline_code_bug :
    read_memory_file ⟨["m"], [(["crlf.txt"], FileData.text "line1\r\nline2")]⟩
        "crlf.txt" = Except.ok "line1\nline2" ∧
    ("line1\nline2" : String) ≠ "line1\r\nline2" := by
  decide

end Memchat
